import Mathlib

/-
  Verification development for the ms2txt repository (Metastock binary reader).

  Shallow embedding of:
    - src/metastockX/utils.py   (fmsbin2ieee, float2date, float2time, convertSymbolName)
    - src/metastock/files.py    (DatFile, Stock, MSMasterFile, MSEMasterFile,
                                 MSXMsterFile, MetastockFiles)
    - src/metastockX/mod_files.py (DataFileInfo, MSEMasterFile for XMASTER)

  Conventions of the embedding:
    - The code is Python 2 (it uses `long`, `xrange`, `chr`-to-str concatenation).
    - Machine floats are represented by their IEEE-754 single-precision bit
      pattern as a Nat (< 2^32); arithmetic on the represented real value is
      done exactly over Nat/Int.  Widening single → double (Python float) is
      exact, so the single pattern determines every downstream observation.
    - Python exceptions are modelled with `Except PyErr`; an uncaught
      exception is an `.error`.
    - Files are byte lists (`List Nat`, one entry per byte); a file handle is
      a position into the list.  `read(n)` yields the next `min n, remaining`
      bytes; `struct.unpack` fails unless it receives exactly the width it
      needs.
    - Python `print` diagnostics relevant to the error-handling claims are
      modelled as a `List String` log threaded through the converters.
-/

namespace Ms2txt

/-- Kinds of Python exceptions that the modelled code can raise. -/
inductive PyErr where
  | structError     -- struct.error from struct.unpack on a wrong-sized buffer
  | indexError      -- IndexError, e.g. ""[0]
  | valueError      -- ValueError, e.g. datetime.date(1900, 0, 0)
  | overflowError   -- OverflowError/ValueError from int() on inf/nan
  | attributeError  -- AttributeError, e.g. None.groups()
  | assertionError  -- AssertionError from a failed assert
  | unboundLocal    -- UnboundLocalError from returning a never-assigned local
  | ioError         -- IOError from open() on a missing file
  | systemExit      -- SystemExit raised by exit()
  deriving DecidableEq, Repr

/-- Python bitwise NOT on arbitrary-precision integers: `~a = -a - 1`. -/
def pyNot (a : Int) : Int := -a - 1

/-- Python bitwise AND on arbitrary-precision integers (two's complement). -/
def pyAnd (a b : Int) : Int :=
  if 0 ≤ a then
    if 0 ≤ b then Int.ofNat (Nat.land a.toNat b.toNat)
    else Int.ofNat (Nat.ldiff a.toNat (pyNot b).toNat)
  else
    if 0 ≤ b then Int.ofNat (Nat.ldiff b.toNat (pyNot a).toNat)
    else pyNot (Int.ofNat (Nat.lor (pyNot a).toNat (pyNot b).toNat))

/-- Python bitwise OR on arbitrary-precision integers (two's complement). -/
def pyOr (a b : Int) : Int :=
  if 0 ≤ a then
    if 0 ≤ b then Int.ofNat (Nat.lor a.toNat b.toNat)
    else pyNot (Int.ofNat (Nat.ldiff (pyNot b).toNat a.toNat))
  else
    if 0 ≤ b then pyNot (Int.ofNat (Nat.ldiff (pyNot a).toNat b.toNat))
    else pyNot (Int.ofNat (Nat.land (pyNot a).toNat (pyNot b).toNat))

/-- Python left shift `a << n` on arbitrary-precision integers. -/
def pyShl (a : Int) (n : Nat) : Int := a * ((2 ^ n : Nat) : Int)

/-- Python arithmetic right shift `a >> n` (floor division by `2^n`). -/
def pyShr (a : Int) (n : Nat) : Int := Int.fdiv a ((2 ^ n : Nat) : Int)

/--
`fmsbin2ieee` from src/metastockX/utils.py lines 8-26: convert 4 bytes holding
a Microsoft Binary Format float to an IEEE single-precision float.  The result
is the IEEE-754 single bit pattern (little-endian byte order reassembled as
`b0 + 256*b1 + 65536*b2 + 16777216*b3`); Python then widens it exactly to a
double.  `struct.unpack("i", bytes)` raises struct.error unless the input is
exactly 4 bytes; the subsequent `if not as_int` test is dead code because
`struct.unpack` returns a non-empty tuple, which is always truthy.
-/
def fmsbin2ieee : List Nat → Except PyErr Nat
  | [b0, b1, b2, b3] =>
    -- man = struct.unpack('H', bytes[2:])[0]  (16-bit little-endian word)
    let man : Nat := b2 + 256 * b3
    if man = 0 then .ok 0
    else
      -- exp = (man & 0xff00) - 0x0200
      let expw : Int := pyAnd (man : Int) 0xff00 - 0x0200
      -- man = man & 0x7f | (man << 8) & 0x8000
      let man1 : Int := pyOr (pyAnd (man : Int) 0x7f) (pyAnd (pyShl (man : Int) 8) 0x8000)
      -- man |= exp >> 1
      let man2 : Int := pyOr man1 (pyShr expw 1)
      -- bytes2 = bytes[:2] + chr(man & 255) + chr((man >> 8) & 255)
      .ok (b0 + 256 * b1 + 65536 * (pyAnd man2 255).toNat +
            16777216 * (pyAnd (pyShr man2 8) 255).toNat)
  | _ => .error .structError

/-- Sign bit of an IEEE-754 single bit pattern. -/
def fSign (p : Nat) : Nat := p / 2 ^ 31 % 2

/-- Biased exponent field of an IEEE-754 single bit pattern. -/
def fExp (p : Nat) : Nat := p / 2 ^ 23 % 256

/-- Fraction field of an IEEE-754 single bit pattern. -/
def fFrac (p : Nat) : Nat := p % 2 ^ 23

/--
Magnitude of an IEEE single truncated toward zero
(`|value| = (2^23 + frac) * 2^(e-150)` for a normal number).
Subnormals are below 1 in magnitude, so they truncate to 0.
-/
def floatTruncMag (p : Nat) : Nat :=
  let e := fExp p
  if e = 0 then 0
  else if 150 ≤ e then (2 ^ 23 + fFrac p) * 2 ^ (e - 150)
  else (2 ^ 23 + fFrac p) / 2 ^ (150 - e)

/--
Python `int(x)` on a float: truncation toward zero; raises on inf/nan
(biased exponent 255).
-/
def pyIntOfFloat (p : Nat) : Except PyErr Int :=
  if fExp p = 255 then .error .overflowError
  else if fSign p = 0 then .ok (floatTruncMag p)
  else .ok (-(floatTruncMag p : Int))

/-- Round `n / d` to the nearest integer, ties to even (CPython float printing). -/
def halfEvenDiv (n d : Nat) : Nat :=
  let q := n / d
  let r := n % d
  if 2 * r < d then q
  else if d < 2 * r then q + 1
  else if q % 2 = 0 then q else q + 1

/--
`|value| * 10^prec` of a finite IEEE single, rounded to the nearest integer
with ties to even — the digit string used by Python's `"%0.<prec>f" % value`.
-/
def floatScaledDigits (prec : Nat) (p : Nat) : Nat :=
  let e := fExp p
  let num := if e = 0 then fFrac p else 2 ^ 23 + fFrac p
  let e2 : Int := (if e = 0 then 1 else (e : Int)) - 150
  if 0 ≤ e2 then num * 10 ^ prec * 2 ^ e2.toNat
  else halfEvenDiv (num * 10 ^ prec) (2 ^ (-e2).toNat)

/-- Decimal rendering of a natural number. -/
def natDecimal (n : Nat) : String := toString n

/-- Left-pad a string with `'0'` to width `w`. -/
def padZeros (w : Nat) (s : String) : String :=
  if s.length < w then String.mk (List.replicate (w - s.length) '0') ++ s else s

/--
Python `("%0." + str(prec) + "f") % value` on the float with single bit
pattern `p`: correctly rounded fixed-point decimal rendering, with
`inf`/`nan` spelled as CPython spells them.
-/
def formatFloat (prec : Nat) (p : Nat) : String :=
  if fExp p = 255 then
    if fFrac p = 0 then (if fSign p = 1 then "-inf" else "inf") else "nan"
  else
    let digits := floatScaledDigits prec p
    let signStr := if fSign p = 1 then "-" else ""
    if prec = 0 then signStr ++ natDecimal digits
    else signStr ++ natDecimal (digits / 10 ^ prec) ++ "." ++
          padZeros prec (natDecimal (digits % 10 ^ prec))

/-- A Python `datetime.date` value (already validated). -/
structure PyDate where
  year : Nat
  month : Nat
  day : Nat
  deriving DecidableEq, Repr

/-- Gregorian leap-year test, as used by `datetime`. -/
def isLeap (y : Nat) : Bool := (y % 4 = 0 && ¬ y % 100 = 0) || y % 400 = 0

/-- Days in a month, as validated by `datetime.date`. -/
def daysInMonth (y m : Nat) : Nat :=
  if m = 2 then (if isLeap y then 29 else 28)
  else if m = 4 ∨ m = 6 ∨ m = 9 ∨ m = 11 then 30
  else 31

/-- `datetime.date(y, m, d)`: validates its arguments, raising ValueError. -/
def mkPyDate (y m d : Int) : Except PyErr PyDate :=
  if 1 ≤ y ∧ y ≤ 9999 ∧ 1 ≤ m ∧ m ≤ 12 ∧ 1 ≤ d ∧ d ≤ (daysInMonth y.toNat m.toNat : Int)
  then .ok ⟨y.toNat, m.toNat, d.toNat⟩
  else .error .valueError

/--
`float2date` from src/metastockX/utils.py lines 28-37 applied to the float
with bit pattern `p`: `date = int(value)`, then Python 2 floor division and
modulus extract year/month/day, then `datetime.date` validates.
-/
def float2date (p : Nat) : Except PyErr PyDate := do
  let v ← pyIntOfFloat p
  mkPyDate (1900 + v.ediv 10000) ((v.emod 10000).ediv 100) (v.emod 100)

/-- A Python `datetime.time` value (already validated; seconds are 0 here). -/
structure PyTime where
  hour : Nat
  minute : Nat
  deriving DecidableEq, Repr

/-- `datetime.time(h, m)`: validates its arguments, raising ValueError. -/
def mkPyTime (h m : Int) : Except PyErr PyTime :=
  if 0 ≤ h ∧ h ≤ 23 ∧ 0 ≤ m ∧ m ≤ 59 then .ok ⟨h.toNat, m.toNat⟩
  else .error .valueError

/--
`float2time` from src/metastockX/utils.py lines 39-47 applied to the float
with bit pattern `p`: `time = int(value)`, `hour = time / 10000`,
`minute = (time % 10000) / 100` (Python 2 floor division).
-/
def float2time (p : Nat) : Except PyErr PyTime := do
  let v ← pyIntOfFloat p
  mkPyTime (v.ediv 10000) ((v.emod 10000).ediv 100)

/-- `strftime('%Y%m%d')` on a (year, month, day) triple: zero-padded fields. -/
def strftimeYmd (y m d : Nat) : String :=
  padZeros 4 (natDecimal y) ++ padZeros 2 (natDecimal m) ++ padZeros 2 (natDecimal d)

/--
`value.strftime('%Y%m%d')` on a `datetime.date`.  Python 2's strftime raises
ValueError for years before 1900 (the interpreter the code targets, given its
use of `long`/`xrange`).
-/
def dateStrftimeYmd (d : PyDate) : Except PyErr String :=
  if d.year < 1900 then .error .valueError
  else .ok (strftimeYmd d.year d.month d.day)

/--
`convertSymbolName` from src/metastockX/utils.py lines 50-67: drop a leading
2-character `'@'` marker and truncate at the first `'#'`.  Indexing
`sym_name[0]` raises IndexError on the empty string.
-/
def convertSymbolName (sym_name : String) : Except PyErr String :=
  match sym_name.toList with
  | [] => .error .indexError
  | c :: _ =>
    let beg_chars := if c = '@' then 2 else 0
    let end_chars :=
      match sym_name.toList.findIdx? (fun ch => ch == '#') with
      | none => sym_name.toList.length
      | some i => i
    .ok (String.mk ((sym_name.toList.drop beg_chars).take (end_chars - beg_chars)))

/-- The four decoding strategies of `DatFile`'s column classes. -/
inductive ColKind where
  | dateK   -- DateColumn: float2date(fmsbin2ieee(bytes)), strftime('%Y%m%d')
  | timeK   -- TimeColumn: float2time(fmsbin2ieee(bytes)), strftime('%Y%m%d')
  | floatK  -- FloatColumn: fmsbin2ieee(bytes), "%0.<precision>f"
  | intK    -- IntColumn: int(fmsbin2ieee(bytes)), str(value)
  deriving DecidableEq, Repr

/-- One entry of `knownMSColumns`: a decode strategy plus an output name. -/
structure ColSpec where
  kind : ColKind
  name : String
  deriving DecidableEq, Repr

/-- `Column.dataSize`: every known column stores its value in 4 bytes. -/
def dataSize : Nat := 4

/-- `DatFile.unknownColumnDataSize`: unknown column data is assumed 4 bytes. -/
def unknownColumnDataSize : Nat := 4

/--
`DatFile.knownMSColumns` from src/metastock/files.py lines 131-140 (the table
in src/metastockX/mod_files.py lines 123-132 is identical): map a Metastock
column token to the object able to read it; unknown tokens map to `none`.
-/
def knownMSColumns : String → Option ColSpec
  | "DATE" => some ⟨.dateK, "Date"⟩
  | "TIME" => some ⟨.timeK, "Time"⟩
  | "OPEN" => some ⟨.floatK, "Open"⟩
  | "HIGH" => some ⟨.floatK, "High"⟩
  | "LOW" => some ⟨.floatK, "Low"⟩
  | "CLOSE" => some ⟨.floatK, "Close"⟩
  | "VOL" => some ⟨.intK, "Volume"⟩
  | "OI" => some ⟨.intK, "Oi"⟩
  | _ => none

/--
`DatFile.TimeColumn.format` (src/metastock/files.py lines 105-108, identical
in src/metastockX/mod_files.py lines 97-100): a non-None `datetime.time` is
formatted with `value.strftime('%Y%m%d')`.  Python's `time.strftime` fills
the date fields from the dummy date 1900-01-01, so the hour/minute never
reach the output.  A None value falls back to `str(None)`.
-/
def TimeColumn.format (v : Option PyTime) : String :=
  match v with
  | some _ => strftimeYmd 1900 1 1
  | none => "None"

/--
`DateColumn.format`: a non-None `datetime.date` is rendered via
`value.strftime('%Y%m%d')` (which can raise for pre-1900 years in Python 2).
-/
def DateColumn.format (d : PyDate) : Except PyErr String := dateStrftimeYmd d

/-- `str` of a Python int (the base `Column.format` used by `IntColumn`). -/
def pyIntStr (v : Int) : String :=
  if v < 0 then "-" ++ natDecimal (-v).toNat else natDecimal v.toNat

/--
`col.read(bytes)` followed by `col.format(value)` for one known column, given
the raw bytes handed to it.  Any exception raised inside propagates.
-/
def colReadFormat (prec : Nat) (c : ColSpec) (bs : List Nat) : Except PyErr String := do
  let p ← fmsbin2ieee bs
  match c.kind with
  | .dateK => do
    let d ← float2date p
    DateColumn.format d
  | .timeK => do
    let t ← float2time p
    .ok (TimeColumn.format (some t))
  | .floatK => .ok (formatFloat prec p)
  | .intK => do
    let v ← pyIntOfFloat p
    .ok (pyIntStr v)

/-- A decoded record: a Python dict as an insertion-ordered association list. -/
abbrev Rec := List (String × String)

/-- The keys of a record, in insertion order. -/
def recKeys (r : Rec) : List String := r.map Prod.fst

/-- Python dict assignment `d[k] = v`: replace in place or append. -/
def recInsert (k v : String) : Rec → Rec
  | [] => [(k, v)]
  | (k0, v0) :: rest => if k0 == k then (k, v) :: rest else (k0, v0) :: recInsert k v rest

/-- Bytes returned by `file_handle.read(n)` at position `pos` of file `data`. -/
def pyRead (data : List Nat) (pos : Int) (n : Nat) : List Nat :=
  (data.drop pos.toNat).take n

/-- `struct.unpack("H", bs)`: a 16-bit little-endian word; exactly 2 bytes. -/
def unpackH : List Nat → Except PyErr Nat
  | [a, b] => .ok (a + 256 * b)
  | _ => .error .structError

/--
The inner column loop of `candles_to_list` (src/metastock/files.py lines
237-250): walk the resolved column list, skipping 4 bytes for an unknown
column (a `None` entry) and read-decode-formatting a known one into the
record.  Returns the finished record and the new file position.
-/
def readCols (prec : Nat) (data : List Nat) :
    List (Option ColSpec) → Int → Rec → Except PyErr (Rec × Int)
  | [], pos, r => .ok (r, pos)
  | none :: rest, pos, r => readCols prec data rest (pos + unknownColumnDataSize) r
  | some c :: rest, pos, r =>
    match colReadFormat prec c (pyRead data pos dataSize) with
    | .error e => .error e
    | .ok s => readCols prec data rest (pos + dataSize) (recInsert c.name s r)

/--
The candle loop of `candles_to_list` (src/metastock/files.py lines 232-254):
`last_rec - 1` iterations, each starting a fresh dict with the Symbol key;
on any exception the `finally` block returns the records accumulated so far
(the partially decoded record is discarded).
-/
def candlesLoop (prec : Nat) (sym : String) (data : List Nat)
    (cols : List (Option ColSpec)) : Nat → Int → List Rec → List Rec
  | 0, _, acc => acc
  | n + 1, pos, acc =>
    match readCols prec data cols pos [("Symbol", sym)] with
    | .error _ => acc
    | .ok (r, pos2) => candlesLoop prec sym data cols n pos2 (acc ++ [r])

/--
All-success reference run of the candle loop: `some (records, finalPos)` when
every one of the `n` records decodes without an exception, `none` otherwise.
-/
def candlesRun (prec : Nat) (sym : String) (data : List Nat)
    (cols : List (Option ColSpec)) : Nat → Int → Option (List Rec × Int)
  | 0, pos => some ([], pos)
  | n + 1, pos =>
    match readCols prec data cols pos [("Symbol", sym)] with
    | .error _ => none
    | .ok (r, pos2) =>
      match candlesRun prec sym data cols n pos2 with
      | none => none
      | some (rs, p) => some (r :: rs, p)

/--
`DatFile.candles_to_list` from src/metastock/files.py lines 201-262.
`file` is the content of `<filename><datafile_ext>` (`none` when the file is
missing, so that `open` raises).  The header is two 16-bit words (`max_recs`,
`last_rec`); then `file_handle.seek((fields - 1) * 4, os.SEEK_CUR)` skips the
padding block (Python 2 ints: for `fields = 0` the seek moves backwards).
The whole body sits in `try ... finally: return data_dict_list`, so every
exception is discarded and the accumulated list is returned.
-/
def candles_to_list (sym : String) (fields : Nat) (columns : List String)
    (file : Option (List Nat)) (prec : Nat) : List Rec :=
  match file with
  | none => []
  | some data =>
    match unpackH (pyRead data 0 2), unpackH (pyRead data 2 2) with
    | .ok _max_recs, .ok last_rec =>
      let pos : Int := 4 + ((fields : Int) - 1) * 4
      candlesLoop prec sym data (columns.map knownMSColumns) (last_rec - 1) pos []
    | _, _ => []

/-- The fallback column layout assumed when no DOP file exists. -/
def defaultColumns : List String :=
  ["DATE", "OPEN", "HIGH", "LOW", "CLOSE", "VOL", "OI"]

/--
`re.search` of the DOP-line pattern `\"(.+)\",.+` (src/metastock/files.py
line 16): leftmost starting quote from which the whole pattern matches, with
a greedy (longest) group; the group must be non-empty, be followed by `",`,
and have at least one character after the comma.
-/
def regTryAt (cs : List Char) (i : Nat) : Option String :=
  if cs.get? i = some '\"' then
    match (List.range cs.length).reverse.find? (fun j =>
        decide (i + 2 ≤ j) && (cs.get? j == some '\"') &&
        (cs.get? (j + 1) == some ',') && decide (j + 2 < cs.length)) with
    | none => none
    | some j => some (String.mk ((cs.drop (i + 1)).take (j - (i + 1))))
  else none

/-- `reg.search(line)` returning the first capture group, if any match. -/
def regSearch (line : String) : Option String :=
  (List.range line.toList.length).findSome? (fun i => regTryAt line.toList i)

/--
One instrument record of the catalog — the mutable `Stock` class of
src/metastock/files.py lines 284-299.
-/
structure Stock where
  file_number : Nat := 0
  record_length : Nat := 0
  fields : Nat := 0
  stock_symbol : String := ""
  stock_name : String := ""
  time_frame : String := "D"
  datafile_ext : String := ""
  filename : String := ""
  first_date : Option PyDate := none
  last_date : Option PyDate := none
  deriving DecidableEq, Repr

/--
The files a conversion run can open, keyed by file number: the DOP sidecar
(already whitespace-split into tokens, as `file.read().split()` yields) and
the DAT data file (raw bytes).  `none` means the file does not exist.
-/
structure FileSystem where
  dop : Nat → Option (List String)
  dat : Nat → Option (List Nat)

/--
`DatFile.load_columns` from src/metastock/files.py lines 39-62.  With no DOP
file: `assert(self.stock.fields == 7)` then the default column set.  With a
DOP file: assert that the token count minus the one trailing non-data line
equals the declared field count, then take each line's first quoted name
(`match.groups()[0]` raises AttributeError when the regex does not match).
-/
def load_columns (fs : FileSystem) (st : Stock) : Except PyErr (List String) :=
  match fs.dop st.file_number with
  | none =>
    if st.fields = 7 then .ok defaultColumns else .error .assertionError
  | some lines =>
    if ((lines.length : Int) - 1) = (st.fields : Int) then
      lines.dropLast.mapM (fun line =>
        match regSearch line with
        | none => .error .attributeError
        | some g => .ok g)
    else .error .assertionError

/-- The diagnostic `print("Error while converting symbol", ...)` emits. -/
def errorDiag (sym : String) : String := "Error while converting symbol " ++ sym

/--
`DatFile.dump_to_list` from src/metastock/files.py lines 30-38.  When
`load_columns` raises, the `except` clause prints the diagnostic, but the
`finally: return data_dict_list` then references a local that was never
assigned, raising UnboundLocalError.  When `load_columns` succeeds,
`candles_to_list` always returns (its own `finally` swallows exceptions).
-/
def dump_to_list (fs : FileSystem) (st : Stock) (prec : Nat) :
    Except PyErr (List Rec) × List String :=
  match load_columns fs st with
  | .error _ => (.error .unboundLocal, [errorDiag st.stock_symbol])
  | .ok cols =>
    (.ok (candles_to_list st.stock_symbol st.fields cols (fs.dat st.file_number) prec), [])

/--
`dump_stock_to_list` from src/metastock/files.py lines 274-282.  It catches
the UnboundLocalError from `dump_to_list`, prints the diagnostic again, and
then its own `return data_dict_list` references an unassigned local, raising
UnboundLocalError once more.
-/
def dump_stock_to_list (fs : FileSystem) (st : Stock) (prec : Nat) :
    Except PyErr (List Rec) × List String :=
  match dump_to_list fs st prec with
  | (.ok l, lg) => (.ok l, lg)
  | (.error _, lg) => (.error .unboundLocal, lg ++ [errorDiag st.stock_symbol])

/-- The catalog table: a Python dict from file number to `Stock`. -/
abbrev Table := List (Nat × Stock)

/-- Python dict assignment `symbols[k] = v`: replace in place or append. -/
def dictInsert (k : Nat) (v : Stock) : Table → Table
  | [] => [(k, v)]
  | (k0, v0) :: rest => if k0 = k then (k, v) :: rest else (k0, v0) :: dictInsert k v rest

/-- Python dict lookup `symbols[k]` (as an Option). -/
def lookupTable : Table → Nat → Option Stock
  | [], _ => none
  | (k0, v0) :: rest, k => if k0 = k then some v0 else lookupTable rest k

/--
One step of the MASTER loop in `MetastockFiles.__init__` (src/metastock/
files.py lines 464-467): insert the record keyed by its file number, but
only when the file number is positive.
-/
def mStep (t : Table) (s : Stock) : Table :=
  if 0 < s.file_number then dictInsert s.file_number s t else t

/-- The MASTER pass of `MetastockFiles.__init__` over its decoded records. -/
def masterPass (records : List Stock) : Table := List.foldl mStep [] records

/--
In-place update `symbols[k].stock_name = nm` of the entry at key `k`, if
present: the binding keeps its position, only its `stock_name` changes.
-/
def nameUpdate : Table → Nat → String → Table
  | [], _, _ => []
  | (k0, v0) :: rest, k, nm =>
    if k0 = k then (k0, { v0 with stock_name := nm }) :: nameUpdate rest k nm
    else (k0, v0) :: nameUpdate rest k nm

/--
One step of the EMASTER loop in `MetastockFiles.__init__` (src/metastock/
files.py lines 470-482): overwrite only `stock_name`, and only when the
record's file number is positive, its name non-empty, and the file number
already in the table.
-/
def emStep (t : Table) (s : Stock) : Table :=
  if 0 < s.file_number ∧ 0 < s.stock_name.length ∧ (lookupTable t s.file_number).isSome = true
  then nameUpdate t s.file_number s.stock_name
  else t

/--
The symbol-table construction of `MetastockFiles.__init__` (src/metastock/
files.py lines 452-493) over the decoded index records: MASTER inserts, then
EMASTER overwrites names.  The XMASTER block is commented out in the source,
so the third argument is unused.
-/
def buildSymbols (master emaster _xmaster : List Stock) : Table :=
  List.foldl emStep (masterPass master) emaster

/--
`MetastockFiles.__init__` including file presence: a missing MASTER leaves
`reconds_count = 0` (zero records); a missing EMASTER prints and calls
`exit()` (SystemExit) inside `MSEMasterFile.load`, aborting construction;
XMASTER is opened but its merge loop is commented out.
-/
def MetastockFilesInit (master emaster _xmaster : Option (List Stock)) :
    Except PyErr Table :=
  let t := masterPass (master.getD [])
  match emaster with
  | none => .error .systemExit
  | some ems => .ok (List.foldl emStep t ems)

/--
The per-stock loop of `MetastockFiles.output_data_list` (src/metastock/
files.py lines 518-529): concatenate each selected stock's records; an
exception escaping `dump_stock_to_list` aborts the whole loop.
-/
def output_data_list_aux (fs : FileSystem) (prec : Nat) (all : Bool)
    (syms : List String) : List (Nat × Stock) → List Rec → List String →
    Except PyErr (List Rec) × List String
  | [], acc, logs => (.ok acc, logs)
  | (_, st) :: rest, acc, logs =>
    if all || syms.contains st.stock_symbol then
      match dump_stock_to_list fs st prec with
      | (.ok l, lg) => output_data_list_aux fs prec all syms rest (acc ++ l) (logs ++ lg)
      | (.error e, lg) => (.error e, logs ++ lg)
    else output_data_list_aux fs prec all syms rest acc logs

/-- `MetastockFiles.output_data_list(all_symbols, symbols)`. -/
def output_data_list (symbols : Table) (all : Bool) (syms : List String)
    (fs : FileSystem) (prec : Nat) : Except PyErr (List Rec) × List String :=
  output_data_list_aux fs prec all syms symbols [] []

/--
`DataFileInfo._load_columns` from src/metastockX/mod_files.py lines 39-53:
no existence check (a missing DOP makes `open` raise IOError), the field
count assert is commented out, and each line but the trailing one yields its
first quoted name.
-/
def msx_load_columns (dopLines : Option (List String)) : Except PyErr (List String) :=
  match dopLines with
  | none => .error .ioError
  | some lines =>
    lines.dropLast.mapM (fun line =>
      match regSearch line with
      | none => .error .attributeError
      | some g => .ok g)

/--
`DataFileInfo.candles_to_list` from src/metastockX/mod_files.py lines
196-256.  Differences from the DatFile version: `num_fields` is the length
of the column list, and the padding block is skipped with
`file_handle.read((num_fields - 1) * 4)` — a `read` with a negative argument
(zero columns) reads to end of file, and a read never moves past end of
file.  The `finally: return data_dict_list` again swallows every exception.
-/
def msx_candles_to_list (sym : String) (columns : List String)
    (file : Option (List Nat)) (prec : Nat) : List Rec :=
  match file with
  | none => []
  | some data =>
    match unpackH (pyRead data 0 2), unpackH (pyRead data 2 2) with
    | .ok _max_recs, .ok last_rec =>
      let nf : Int := (columns.length : Int)
      let pos : Int :=
        if nf - 1 < 0 then (data.length : Int)
        else min (4 + (nf - 1) * 4) (data.length : Int)
      candlesLoop prec sym data (columns.map knownMSColumns) (last_rec - 1) pos []
    | _, _ => []

/--
`DataFileInfo.convert2list` from src/metastockX/mod_files.py lines 273-288:
the same try/except/finally shape as `dump_to_list`, with the same
UnboundLocalError when `_load_columns` raises.
-/
def convert2list (dop : Option (List String)) (sym : String)
    (file : Option (List Nat)) (prec : Nat) : Except PyErr (List Rec) × List String :=
  match msx_load_columns dop with
  | .error _ => (.error .unboundLocal, [errorDiag sym])
  | .ok cols => (.ok (msx_candles_to_list sym cols file prec), [])

/-- The part of a decoded XMASTER record the output loop consults. -/
structure XStockInfo where
  stock_symbol : String := ""
  file_num : Nat := 0
  deriving DecidableEq, Repr

/-- State left by `metastockX.mod_files.MSEMasterFile.__init__`. -/
structure XMasterState where
  master_file : Bool
  stocks : List XStockInfo
  deriving DecidableEq, Repr

/--
`MSEMasterFile.__init__` from src/metastockX/mod_files.py lines 335-370:
when no XMASTER file exists, set `master_file = False` and return without
reading anything (not fatal); otherwise record the decoded entries.
-/
def msxInit (xmaster : Option (List XStockInfo)) : XMasterState :=
  match xmaster with
  | none => ⟨false, []⟩
  | some l => ⟨true, l⟩

/-- The files of the XMASTER-side conversion, keyed by file number. -/
structure XFileSystem where
  dop : Nat → Option (List String)
  mwd : Nat → Option (List Nat)

/-- The per-stock loop of `MSEMasterFile.output_data_list` (mod_files.py). -/
def msx_output_data_list_aux (fs : XFileSystem) (prec : Nat) (all : Bool)
    (syms : List String) : List XStockInfo → List Rec → List String →
    Except PyErr (List Rec) × List String
  | [], acc, logs => (.ok acc, logs)
  | st :: rest, acc, logs =>
    if all || syms.contains st.stock_symbol then
      match convert2list (fs.dop st.file_num) st.stock_symbol (fs.mwd st.file_num) prec with
      | (.ok l, lg) => msx_output_data_list_aux fs prec all syms rest (acc ++ l) (logs ++ lg)
      | (.error e, lg) => (.error e, logs ++ lg)
    else msx_output_data_list_aux fs prec all syms rest acc logs

/--
`MSEMasterFile.output_data_list` from src/metastockX/mod_files.py lines
396-411: with `master_file == False` (absent XMASTER) it immediately returns
the empty list.
-/
def msx_output_data_list (st : XMasterState) (all : Bool) (syms : List String)
    (fs : XFileSystem) (prec : Nat) : Except PyErr (List Rec) × List String :=
  if st.master_file = false then (.ok [], [])
  else msx_output_data_list_aux fs prec all syms st.stocks [] []

/-- The single catalog entry of the end-to-end scenario. -/
def abcStock : Stock :=
  { file_number := 7, record_length := 28, fields := 7, stock_symbol := "ABC",
    stock_name := "ABC INC", time_frame := "D", datafile_ext := ".DAT",
    filename := "F7" }

/-- MBF bytes decoding to 1200102.0, i.e. the date 2020-01-02. -/
def dateBytes : List Nat := [48, 127, 18, 149]

/-- MBF bytes decoding to 3.0. -/
def threeBytes : List Nat := [0, 0, 64, 130]

/-- One stored 7-field record: DATE, OPEN, HIGH, LOW, CLOSE, VOL, OI. -/
def recordBytes : List Nat :=
  dateBytes ++ threeBytes ++ threeBytes ++ threeBytes ++ threeBytes ++
    threeBytes ++ threeBytes

/-- Scenario data file: header max=10, last=3, padding, two stored records. -/
def scenarioData : List Nat :=
  [10, 0, 3, 0] ++ List.replicate 24 0 ++ recordBytes ++ recordBytes

/-- Scenario file system: no DOP sidecars; `F7.DAT` holds `scenarioData`. -/
def scenarioFS : FileSystem :=
  { dop := fun _ => none,
    dat := fun n => if n = 7 then some scenarioData else none }

/-- The record each stored scenario tick decodes to. -/
def scenarioRec : Rec :=
  [("Symbol", "ABC"), ("Date", "20200102"), ("Open", "3.00"), ("High", "3.00"),
   ("Low", "3.00"), ("Close", "3.00"), ("Volume", "3"), ("Oi", "3")]

/-
  Claim theorems.
-/

/--
C1: for every 4-byte input whose mantissa word (the 16-bit little-endian
value stored in bytes 2-3) is zero, `fmsbin2ieee` returns exactly 0.0 (the
IEEE bit pattern 0), regardless of the values of the other bytes.
-/
theorem C1_zero_mantissa_yields_zero (b0 b1 b2 b3 : Nat) (h : b2 + 256 * b3 = 0) :
    fmsbin2ieee [b0, b1, b2, b3] = .ok 0 := by
  simp [fmsbin2ieee, h]

/-- C1 witness: concrete input with arbitrary non-zero low bytes. -/
theorem C1_zero_mantissa_yields_zero_witness :
    fmsbin2ieee [171, 205, 0, 0] = .ok 0 :=
  C1_zero_mantissa_yields_zero 171 205 0 0 (by decide)

/--
Formalisation of C2's description of the non-zero-mantissa path: rebias the
packed word by subtracting 0x0200, rebuild the sign-and-mantissa word as
`(word & 0x7f) | ((word << 8) & 0x8000)` combined with the rebiased exponent
shifted right by one, and reassemble the 4-byte single from the original
low-order two bytes plus the two recomputed bytes.
-/
def fmsbin2ieeeClaimC2 (b0 b1 b2 b3 : Nat) : Nat :=
  let word : Int := ((b2 + 256 * b3 : Nat) : Int)
  let rebiased : Int := pyAnd word 0xff00 - 0x0200
  let signMant : Int := pyOr (pyAnd word 0x7f) (pyAnd (pyShl word 8) 0x8000)
  let combined : Int := pyOr signMant (pyShr rebiased 1)
  b0 + 256 * b1 + 65536 * (pyAnd combined 255).toNat +
    16777216 * (pyAnd (pyShr combined 8) 255).toNat

/--
C2: for every 4-byte input with a non-zero mantissa word, `fmsbin2ieee`
computes exactly the rebias/reconstruct/reassemble formula described by the
claim (single-to-double widening is exact, so the single bit pattern is the
result).
-/
theorem C2_nonzero_mantissa_formula (b0 b1 b2 b3 : Nat) (h : b2 + 256 * b3 ≠ 0) :
    fmsbin2ieee [b0, b1, b2, b3] = .ok (fmsbin2ieeeClaimC2 b0 b1 b2 b3) := by
  simp [fmsbin2ieee, fmsbin2ieeeClaimC2, h]

/-- C2 witness: the formula evaluated on the scenario date bytes. -/
theorem C2_nonzero_mantissa_formula_witness :
    fmsbin2ieee [48, 127, 18, 149] = .ok (fmsbin2ieeeClaimC2 48 127 18 149) :=
  C2_nonzero_mantissa_formula 48 127 18 149 (by decide)

/--
C7: with no DOP sidecar file, column-layout resolution returns the fixed
default layout when the declared field count is 7, and fails with an
AssertionError otherwise.
-/
theorem C7_no_dop_fallback (fs : FileSystem) (st : Stock)
    (h : fs.dop st.file_number = none) :
    load_columns fs st =
      if st.fields = 7 then .ok defaultColumns else .error .assertionError := by
  unfold load_columns
  rw [h]

/-- C7 witness: field count 7 resolves to the default layout; 8 fails. -/
theorem C7_no_dop_fallback_witness :
    load_columns scenarioFS abcStock = .ok defaultColumns ∧
    load_columns scenarioFS { abcStock with fields := 8 } = .error .assertionError := by
  constructor
  · have h := C7_no_dop_fallback scenarioFS abcStock rfl
    simpa using h
  · have h := C7_no_dop_fallback scenarioFS { abcStock with fields := 8 } rfl
    simpa using h

/--
C10: every non-None decoded time-of-day value is formatted by
`TimeColumn.format` with the date pattern `'%Y%m%d'`, which on a
`datetime.time` renders the dummy date 1900-01-01, so the output is the
constant string "19000101" and the decoded hour and minute never appear.
-/
theorem C10_time_formats_as_constant_date (t : PyTime) :
    TimeColumn.format (some t) = "19000101" := rfl

/-- A step of the EMASTER pass never creates an entry in an empty table. -/
theorem emStep_nil (s : Stock) : emStep [] s = [] := by
  simp [emStep, lookupTable]

/-- The EMASTER pass over an empty table leaves it empty. -/
theorem emFold_nil (ems : List Stock) : List.foldl emStep [] ems = [] := by
  induction ems with
  | nil => rfl
  | cons e es ih => simp [emStep_nil, ih]

/--
C6: a missing MASTER yields zero standard-index records and catalog
construction proceeds (producing an empty table); a missing EMASTER aborts
the whole build via `exit()`; a missing XMASTER makes the cross-reference
side yield an empty contribution without error.
-/
theorem C6_absent_index_files :
    (∀ em x, MetastockFilesInit none (some em) x = .ok []) ∧
    (∀ m x, MetastockFilesInit m none x = .error .systemExit) ∧
    (∀ all syms fs prec, msx_output_data_list (msxInit none) all syms fs prec = (.ok [], [])) := by
  refine ⟨fun em x => ?_, fun m x => rfl, fun all syms fs prec => rfl⟩
  simp [MetastockFilesInit, masterPass, emFold_nil]

/-- The three-symbol catalog of the C5 failure scenario. -/
def stockAAA : Stock := { file_number := 1, fields := 7, stock_symbol := "AAA" }

/-- Failure trigger: declared field count 8 with no DOP sidecar. -/
def stockBBB : Stock := { file_number := 2, fields := 8, stock_symbol := "BBB" }

/-- A third symbol, after the failing one, never reached by the loop. -/
def stockCCC : Stock := { file_number := 3, fields := 7, stock_symbol := "CCC" }

/-- The C5 file system: no sidecars; data files for AAA and CCC only. -/
def c5FS : FileSystem :=
  { dop := fun _ => none,
    dat := fun n => if n = 2 then none else some scenarioData }

/--
C5: processing a symbol whose column resolution fails does NOT continue with
the remaining symbols.  The failure is caught and the symbol-identifying
diagnostic printed, but `dump_to_list`'s `finally: return data_dict_list`
then raises UnboundLocalError, which `dump_stock_to_list` re-raises the same
way, aborting `output_data_list`: symbol CCC is never processed and even
AAA's records are lost with the stack unwind.
-/
theorem C5_failure_aborts_conversion :
    output_data_list (buildSymbols [stockAAA, stockBBB, stockCCC] [] []) true [] c5FS 2
      = (.error .unboundLocal, [errorDiag "BBB", errorDiag "BBB"]) := by
  rfl

/-- A successful `findIdx?` search that started at `j` reports an index ≥ `j`. -/
theorem findIdx?_start_le (p : Char → Bool) :
    ∀ (cs : List Char) (j i : Nat), List.findIdx? p cs j = some i → j ≤ i := by
  intro cs
  induction cs with
  | nil => intro j i h; rw [List.findIdx?_nil] at h; exact absurd h (by simp)
  | cons c tl ih =>
    intro j i h
    rw [List.findIdx?_cons] at h
    by_cases hp : p c = true
    · rw [if_pos hp] at h
      cases h
      exact Nat.le_refl _
    · rw [if_neg hp] at h
      exact Nat.le_of_succ_le (ih (j + 1) i h)

/-- Elements strictly before the index found by `findIdx?` fail the test. -/
theorem findIdx?_take_false (p : Char → Bool) :
    ∀ (cs : List Char) (j i : Nat), List.findIdx? p cs j = some i →
      ∀ x ∈ cs.take (i - j), p x = false := by
  intro cs
  induction cs with
  | nil => intro j i _ x hx; simp at hx
  | cons c tl ih =>
    intro j i h x hx
    rw [List.findIdx?_cons] at h
    by_cases hp : p c = true
    · rw [if_pos hp] at h
      cases h
      simp at hx
    · rw [if_neg hp] at h
      have hji : j + 1 ≤ i := findIdx?_start_le p tl (j + 1) i h
      have hsub : i - j = (i - (j + 1)) + 1 := by omega
      rw [hsub] at hx
      rcases (List.mem_cons).mp hx with hx1 | hx2
      · subst hx1; exact eq_false_of_ne_true hp
      · exact ih (j + 1) i h x hx2

/-- The output of a successful `convertSymbolName` never contains `'#'`. -/
theorem convertSymbolName_ok_no_pound (s t : String)
    (h : convertSymbolName s = .ok t) : ∀ x ∈ t.toList, (x == '#') = false := by
  intro x hx
  unfold convertSymbolName at h
  cases hs : s.toList with
  | nil => rw [hs] at h; exact absurd h (by simp)
  | cons c rest =>
    rw [hs] at h
    simp only [Except.ok.injEq] at h
    cases hfind : List.findIdx? (fun ch => ch == '#') (c :: rest) with
    | none =>
      rw [hfind] at h
      have hall := List.findIdx?_eq_none_iff.mp hfind
      apply hall
      have : x ∈ (c :: rest) := by
        have hmem : x ∈ ((c :: rest).drop (if c = '@' then 2 else 0)).take
            ((c :: rest).length - (if c = '@' then 2 else 0)) := by
          rw [← h] at hx
          simpa using hx
        exact List.drop_subset _ _ (List.take_subset _ _ hmem)
      exact this
    | some i =>
      rw [hfind] at h
      have hmem : x ∈ ((c :: rest).drop (if c = '@' then 2 else 0)).take
          (i - (if c = '@' then 2 else 0)) := by
        rw [← h] at hx
        simpa using hx
      rw [← List.drop_take] at hmem
      have hmem2 : x ∈ (c :: rest).take i := List.drop_subset _ _ hmem
      have := findIdx?_take_false (fun ch => ch == '#') (c :: rest) 0 i hfind x
      simpa using this (by simpa using hmem2)

/--
C8 counterexample: the symbol-name normalizer is not idempotent on
`"@a@b"`: one pass gives `"@b"`, a second pass strips the `'@'` again and
gives `""`.
-/
theorem C8_not_idempotent_counterexample :
    ¬ ((convertSymbolName "@a@b").bind convertSymbolName = convertSymbolName "@a@b") := by
  intro h
  have h1 : (convertSymbolName "@a@b").bind convertSymbolName = .ok "" := by rfl
  have h2 : convertSymbolName "@a@b" = .ok "@b" := by rfl
  rw [h1, h2] at h
  exact absurd (Except.ok.inj h) (by decide)

/--
C8 amended: the normalizer is idempotent on every input whose normal form is
defined, non-empty, and does not itself begin with `'@'`: a second
application then returns its input unchanged.
-/
theorem C8_amended_idempotent (s t : String) (h1 : convertSymbolName s = .ok t)
    (h2 : t ≠ "") (h3 : t.toList.head? ≠ some '@') :
    (convertSymbolName s).bind convertSymbolName = convertSymbolName s := by
  rw [h1]
  show convertSymbolName t = .ok t
  have hnp := convertSymbolName_ok_no_pound s t h1
  cases ht : t.toList with
  | nil =>
    exact absurd (String.ext (by simpa [String.toList] using ht)) h2
  | cons c rest =>
    have hc : ¬ c = '@' := by
      intro hcc
      exact h3 (by rw [ht, hcc]; rfl)
    have hfind : List.findIdx? (fun ch => ch == '#') (c :: rest) = none := by
      apply List.findIdx?_eq_none_iff.mpr
      intro x hx
      exact hnp x (by rw [ht]; exact hx)
    unfold convertSymbolName
    rw [ht, hfind]
    simp only [if_neg hc]
    rw [Nat.sub_zero, List.drop_zero, List.take_length]
    rw [← ht]
    rfl

/-- C8 amended witness: a plain symbol name is a fixed point. -/
theorem C8_amended_idempotent_witness :
    (convertSymbolName "AB").bind convertSymbolName = convertSymbolName "AB" :=
  C8_amended_idempotent "AB" "AB" (by rfl) (by decide) (by decide)

/-- When every record decodes, the candle loop appends exactly those records. -/
theorem candlesLoop_of_run (prec : Nat) (sym : String) (data : List Nat)
    (cols : List (Option ColSpec)) :
    ∀ (n : Nat) (pos : Int) (rs : List Rec) (p : Int) (acc : List Rec),
      candlesRun prec sym data cols n pos = some (rs, p) →
      candlesLoop prec sym data cols n pos acc = acc ++ rs := by
  intro n
  induction n with
  | zero =>
    intro pos rs p acc h
    simp only [candlesRun, Option.some.injEq, Prod.mk.injEq] at h
    simp [candlesLoop, ← h.1]
  | succ k ih =>
    intro pos rs p acc h
    unfold candlesRun at h
    unfold candlesLoop
    cases hr : readCols prec data cols pos [("Symbol", sym)] with
    | error e => rw [hr] at h; simp at h
    | ok rp =>
      obtain ⟨r, pos2⟩ := rp
      rw [hr] at h
      dsimp only at h ⊢
      cases hrun : candlesRun prec sym data cols k pos2 with
      | none => rw [hrun] at h; simp at h
      | some rsp =>
        obtain ⟨rs2, p2⟩ := rsp
        rw [hrun] at h
        dsimp only at h
        simp only [Option.some.injEq, Prod.mk.injEq] at h
        rw [ih pos2 rs2 p2 (acc ++ [r]) hrun, ← h.1]
        simp

/-- When every record decodes, the run yields one record per iteration. -/
theorem candlesRun_length (prec : Nat) (sym : String) (data : List Nat)
    (cols : List (Option ColSpec)) :
    ∀ (n : Nat) (pos : Int) (rs : List Rec) (p : Int),
      candlesRun prec sym data cols n pos = some (rs, p) → rs.length = n := by
  intro n
  induction n with
  | zero =>
    intro pos rs p h
    simp only [candlesRun, Option.some.injEq, Prod.mk.injEq] at h
    rw [← h.1]
    rfl
  | succ k ih =>
    intro pos rs p h
    unfold candlesRun at h
    cases hr : readCols prec data cols pos [("Symbol", sym)] with
    | error e => rw [hr] at h; simp at h
    | ok rp =>
      obtain ⟨r, pos2⟩ := rp
      rw [hr] at h
      dsimp only at h
      cases hrun : candlesRun prec sym data cols k pos2 with
      | none => rw [hrun] at h; simp at h
      | some rsp =>
        obtain ⟨rs2, p2⟩ := rsp
        rw [hrun] at h
        dsimp only at h
        simp only [Option.some.injEq, Prod.mk.injEq] at h
        rw [← h.1]
        simp [ih pos2 rs2 p2 hrun]

/-- Every record of a successful run comes from one `readCols` call. -/
theorem candlesRun_mem (prec : Nat) (sym : String) (data : List Nat)
    (cols : List (Option ColSpec)) :
    ∀ (n : Nat) (pos : Int) (rs : List Rec) (p : Int),
      candlesRun prec sym data cols n pos = some (rs, p) →
      ∀ r ∈ rs, ∃ q q2, readCols prec data cols q [("Symbol", sym)] = .ok (r, q2) := by
  intro n
  induction n with
  | zero =>
    intro pos rs p h r hr
    simp only [candlesRun, Option.some.injEq, Prod.mk.injEq] at h
    rw [← h.1] at hr
    simp at hr
  | succ k ih =>
    intro pos rs p h r hr
    unfold candlesRun at h
    cases hrc : readCols prec data cols pos [("Symbol", sym)] with
    | error e => rw [hrc] at h; simp at h
    | ok rp =>
      obtain ⟨r0, pos2⟩ := rp
      rw [hrc] at h
      dsimp only at h
      cases hrun : candlesRun prec sym data cols k pos2 with
      | none => rw [hrun] at h; simp at h
      | some rsp =>
        obtain ⟨rs2, p2⟩ := rsp
        rw [hrun] at h
        dsimp only at h
        simp only [Option.some.injEq, Prod.mk.injEq] at h
        rw [← h.1] at hr
        rcases (List.mem_cons).mp hr with hr1 | hr2
        · exact ⟨pos, pos2, by rw [hrc, hr1]⟩
        · exact ih pos2 rs2 p2 hrun r hr2

/--
When the first `k` records decode and the next one fails, the candle loop
returns exactly the `k` decoded records (the caller's accumulated list).
-/
theorem candlesLoop_fail (prec : Nat) (sym : String) (data : List Nat)
    (cols : List (Option ColSpec)) :
    ∀ (k n : Nat) (pos : Int) (rs : List Rec) (p : Int) (e : PyErr) (acc : List Rec),
      candlesRun prec sym data cols k pos = some (rs, p) →
      readCols prec data cols p [("Symbol", sym)] = .error e →
      k < n →
      candlesLoop prec sym data cols n pos acc = acc ++ rs := by
  intro k
  induction k with
  | zero =>
    intro n pos rs p e acc hrun hfail hlt
    simp only [candlesRun, Option.some.injEq, Prod.mk.injEq] at hrun
    cases n with
    | zero => omega
    | succ m =>
      unfold candlesLoop
      rw [← hrun.2] at hfail
      rw [hfail]
      dsimp only
      rw [← hrun.1]
      simp
  | succ j ih =>
    intro n pos rs p e acc hrun hfail hlt
    unfold candlesRun at hrun
    cases hrc : readCols prec data cols pos [("Symbol", sym)] with
    | error e2 => rw [hrc] at hrun; simp at hrun
    | ok rp =>
      obtain ⟨r, pos2⟩ := rp
      rw [hrc] at hrun
      dsimp only at hrun
      cases hrun2 : candlesRun prec sym data cols j pos2 with
      | none => rw [hrun2] at hrun; simp at hrun
      | some rsp =>
        obtain ⟨rs2, p2⟩ := rsp
        rw [hrun2] at hrun
        dsimp only at hrun
        simp only [Option.some.injEq, Prod.mk.injEq] at hrun
        cases n with
        | zero => omega
        | succ m =>
          unfold candlesLoop
          rw [hrc]
          dsimp only
          have := ih m pos2 rs2 p2 e (acc ++ [r]) hrun2
            (by rw [← hrun.2] at hfail; exact hfail) (by omega)
          rw [this, ← hrun.1]
          simp

/-- Key-set effect of a Python dict assignment. -/
def insKey (ks : List String) (k : String) : List String :=
  if ks.contains k then ks else ks ++ [k]

/-- `recInsert` has the key-set effect of a dict assignment. -/
theorem recKeys_recInsert (k v : String) :
    ∀ r : Rec, recKeys (recInsert k v r) = insKey (recKeys r) k := by
  intro r
  induction r with
  | nil => rfl
  | cons kv rest ih =>
    obtain ⟨k0, v0⟩ := kv
    by_cases hk : (k0 == k) = true
    · have hk2 : k0 = k := by simpa using hk
      simp [recInsert, recKeys, insKey, hk, hk2, List.contains_cons]
    · simp only [recInsert, hk, if_false, Bool.false_eq_true]
      simp only [recKeys, List.map_cons] at ih ⊢
      rw [ih]
      simp only [insKey, List.contains_cons, hk, Bool.false_or]
      have hk3 : ¬ k = k0 := fun hh => hk (by simp [hh])
      by_cases hc : (recKeys rest).contains k = true
      · simp [recKeys] at hc
        simp [hc, hk3]
      · simp [recKeys] at hc
        simp [hc, hk3]

/-- The key-set of the record built by the column loop. -/
theorem readCols_keys (prec : Nat) (data : List Nat) :
    ∀ (colsl : List (Option ColSpec)) (pos : Int) (r r2 : Rec) (p2 : Int),
      readCols prec data colsl pos r = .ok (r2, p2) →
      recKeys r2 = List.foldl (fun ks oc =>
          match oc with
          | none => ks
          | some c => insKey ks c.name) (recKeys r) colsl := by
  intro colsl
  induction colsl with
  | nil =>
    intro pos r r2 p2 h
    simp only [readCols, Except.ok.injEq, Prod.mk.injEq] at h
    rw [← h.1]
    rfl
  | cons oc rest ih =>
    intro pos r r2 p2 h
    cases oc with
    | none =>
      unfold readCols at h
      exact ih (pos + unknownColumnDataSize) r r2 p2 h
    | some c =>
      unfold readCols at h
      cases hcf : colReadFormat prec c (pyRead data pos dataSize) with
      | error e => rw [hcf] at h; simp at h
      | ok s =>
        rw [hcf] at h
        dsimp only at h
        have := ih (pos + dataSize) (recInsert c.name s r) r2 p2 h
        rw [this, recKeys_recInsert]
        rfl

/-- `struct.unpack("H", bs)` fails on any buffer that is not 2 bytes. -/
theorem unpackH_err : ∀ bs : List Nat, bs.length ≠ 2 →
    unpackH bs = .error .structError := by
  intro bs h
  match bs with
  | [] => rfl
  | [_] => rfl
  | [_, _] => exact absurd rfl h
  | _ :: _ :: _ :: _ => rfl

/-- A successful `struct.unpack("H", bs)` consumed exactly 2 bytes. -/
theorem unpackH_ok_length : ∀ (bs : List Nat) (v : Nat), unpackH bs = .ok v →
    bs.length = 2 := by
  intro bs v h
  match bs with
  | [] => exact absurd h (by simp [unpackH])
  | [_] => exact absurd h (by simp [unpackH])
  | [_, _] => rfl
  | _ :: _ :: _ :: _ => exact absurd h (by simp [unpackH])

/--
C3: whenever the data file's header declares `last_rec` and all `last_rec - 1`
records decode without error, `candles_to_list` yields exactly those
`last_rec - 1` records, and under the default 7-column layout every record
has exactly the keys Symbol, Date, Open, High, Low, Close, Volume, Oi in
that order.  Moreover, the concrete end-to-end scenario — a one-symbol
catalog (field count 7, no DOP sidecar) whose data file has header max=10,
last=3 and two stored 7-field records — yields through
`buildSymbols` → `output_data_list(all)` exactly 2 records with exactly
those keys.
-/
theorem C3_record_count_and_keys :
    (∀ (sym : String) (fields prec : Nat) (columns : List String) (data : List Nat)
        (mx last : Nat) (rs : List Rec) (p : Int),
      unpackH (pyRead data 0 2) = .ok mx →
      unpackH (pyRead data 2 2) = .ok last →
      candlesRun prec sym data (columns.map knownMSColumns) (last - 1)
          (4 + ((fields : Int) - 1) * 4) = some (rs, p) →
      candles_to_list sym fields columns (some data) prec = rs ∧
      rs.length = last - 1 ∧
      (columns = defaultColumns → ∀ r ∈ rs,
        recKeys r = ["Symbol", "Date", "Open", "High", "Low", "Close", "Volume", "Oi"])) ∧
    (∃ rs, output_data_list (buildSymbols [abcStock] [] []) true [] scenarioFS 2 = (.ok rs, []) ∧
      rs.length = 2 ∧ ∀ r ∈ rs,
        recKeys r = ["Symbol", "Date", "Open", "High", "Low", "Close", "Volume", "Oi"]) := by
  constructor
  · intro sym fields prec columns data mx last rs p h1 h2 hrun
    refine ⟨?_, candlesRun_length prec sym data _ _ _ rs p hrun, ?_⟩
    · unfold candles_to_list
      dsimp only
      rw [h1, h2]
      dsimp only
      exact candlesLoop_of_run prec sym data _ _ _ rs p [] hrun
    · intro hcols r hr
      subst hcols
      obtain ⟨q, q2, hq⟩ := candlesRun_mem prec sym data _ _ _ rs p hrun r hr
      have := readCols_keys prec data _ q [("Symbol", sym)] r q2 hq
      rw [this]
      rfl
  · exact ⟨[scenarioRec, scenarioRec], by rfl, by rfl, by decide⟩

/-- C3 witness: the general part applied to the scenario's data file. -/
theorem C3_record_count_and_keys_witness :
    candles_to_list "ABC" 7 defaultColumns (some scenarioData) 2 = [scenarioRec, scenarioRec] ∧
    ([scenarioRec, scenarioRec] : List Rec).length = 3 - 1 := by
  have h := C3_record_count_and_keys.1 "ABC" 7 2 defaultColumns scenarioData 10 3
    [scenarioRec, scenarioRec] 84 (by rfl) (by rfl) (by rfl)
  exact ⟨h.1, h.2.1⟩

/--
C9: `candles_to_list` never propagates an exception: a missing file yields
`[]`, a header too short to unpack yields `[]`, and when the first `k`
records decode but the next read fails, the `finally`-returned value is
exactly the `k` complete records — the partially decoded record is dropped.
-/
theorem C9_finally_returns_decoded_records :
    (∀ sym fields cols prec, candles_to_list sym fields cols none prec = []) ∧
    (∀ sym fields cols prec (data : List Nat), data.length < 4 →
      candles_to_list sym fields cols (some data) prec = []) ∧
    (∀ (sym : String) (fields prec : Nat) (cols : List String) (data : List Nat)
        (mx last k : Nat) (rs : List Rec) (p : Int) (e : PyErr),
      unpackH (pyRead data 0 2) = .ok mx →
      unpackH (pyRead data 2 2) = .ok last →
      k < last - 1 →
      candlesRun prec sym data (cols.map knownMSColumns) k
          (4 + ((fields : Int) - 1) * 4) = some (rs, p) →
      readCols prec data (cols.map knownMSColumns) p [("Symbol", sym)] = .error e →
      candles_to_list sym fields cols (some data) prec = rs ∧ rs.length = k) := by
  refine ⟨fun sym fields cols prec => rfl, ?_, ?_⟩
  · intro sym fields cols prec data hlen
    unfold candles_to_list
    dsimp only
    cases h1 : unpackH (pyRead data 0 2) with
    | error e1 => rfl
    | ok mx =>
      cases h2 : unpackH (pyRead data 2 2) with
      | error e2 => rfl
      | ok last =>
        exfalso
        have l1 := unpackH_ok_length _ _ h1
        have l2 := unpackH_ok_length _ _ h2
        simp [pyRead] at l1 l2
        omega
  · intro sym fields prec cols data mx last k rs p e h1 h2 hk hrun hfail
    constructor
    · unfold candles_to_list
      dsimp only
      rw [h1, h2]
      dsimp only
      exact candlesLoop_fail prec sym data _ k (last - 1) _ rs p e [] hrun hfail hk
    · exact candlesRun_length prec sym data _ k _ rs p hrun

/-- Truncated scenario data file: one full record then 2 stray bytes. -/
def truncatedData : List Nat :=
  [10, 0, 3, 0] ++ List.replicate 24 0 ++ recordBytes ++ [0, 0]

/-- C9 witness: the truncated file yields exactly the one complete record. -/
theorem C9_finally_returns_decoded_records_witness :
    candles_to_list "ABC" 7 defaultColumns (some truncatedData) 2 = [scenarioRec] :=
  (C9_finally_returns_decoded_records.2.2 "ABC" 7 2 defaultColumns truncatedData
    10 3 1 [scenarioRec] 56 .structError (by rfl) (by rfl) (by decide)
    (by rfl) (by rfl)).1

/-- Looking up the key just inserted yields the inserted value. -/
theorem lookupTable_dictInsert_self (k : Nat) (v : Stock) :
    ∀ t : Table, lookupTable (dictInsert k v t) k = some v := by
  intro t
  induction t with
  | nil => simp [dictInsert, lookupTable]
  | cons kv rest ih =>
    obtain ⟨k0, v0⟩ := kv
    by_cases hk : k0 = k
    · simp [dictInsert, lookupTable, hk]
    · simp [dictInsert, lookupTable, hk, ih]

/-- Inserting one key leaves every other key's binding unchanged. -/
theorem lookupTable_dictInsert_ne (k j : Nat) (v : Stock) (hjk : j ≠ k) :
    ∀ t : Table, lookupTable (dictInsert k v t) j = lookupTable t j := by
  have hkj : ¬ k = j := fun h => hjk h.symm
  intro t
  induction t with
  | nil => simp [dictInsert, lookupTable, hkj]
  | cons kv rest ih =>
    obtain ⟨k0, v0⟩ := kv
    by_cases hk : k0 = k
    · have hk0j : ¬ k0 = j := by rw [hk]; exact hkj
      unfold dictInsert
      rw [if_pos hk]
      unfold lookupTable
      rw [if_neg hkj, if_neg hk0j]
    · unfold dictInsert
      rw [if_neg hk]
      unfold lookupTable
      by_cases hj : k0 = j
      · rw [if_pos hj, if_pos hj]
      · rw [if_neg hj, if_neg hj, ih]

/-- `nameUpdate` rewrites only the binding of its key. -/
theorem lookupTable_nameUpdate_ne (k j : Nat) (nm : String) (hjk : j ≠ k) :
    ∀ t : Table, lookupTable (nameUpdate t k nm) j = lookupTable t j := by
  intro t
  induction t with
  | nil => rfl
  | cons kv rest ih =>
    obtain ⟨k0, v0⟩ := kv
    by_cases hk : k0 = k
    · have hk0j : ¬ k0 = j := by rw [hk]; exact fun h => hjk h.symm
      unfold nameUpdate
      rw [if_pos hk]
      unfold lookupTable
      rw [if_neg hk0j, if_neg hk0j, ih]
    · unfold nameUpdate
      rw [if_neg hk]
      unfold lookupTable
      by_cases hj : k0 = j
      · rw [if_pos hj, if_pos hj]
      · rw [if_neg hj, if_neg hj, ih]

/-- `nameUpdate` maps the binding at its own key through the name overwrite. -/
theorem lookupTable_nameUpdate_self (k : Nat) (nm : String) :
    ∀ t : Table, lookupTable (nameUpdate t k nm) k =
      (lookupTable t k).map (fun v => { v with stock_name := nm }) := by
  intro t
  induction t with
  | nil => rfl
  | cons kv rest ih =>
    obtain ⟨k0, v0⟩ := kv
    by_cases hk : k0 = k
    · unfold nameUpdate
      rw [if_pos hk]
      unfold lookupTable
      rw [if_pos hk, if_pos hk]
      rfl
    · unfold nameUpdate
      rw [if_neg hk]
      unfold lookupTable
      rw [if_neg hk, if_neg hk, ih]

/-- One EMASTER step never changes which keys are present. -/
theorem emStep_isSome (t : Table) (s : Stock) (k : Nat) :
    (lookupTable (emStep t s) k).isSome = (lookupTable t k).isSome := by
  unfold emStep
  by_cases hcond : 0 < s.file_number ∧ 0 < s.stock_name.length ∧
      (lookupTable t s.file_number).isSome = true
  · rw [if_pos hcond]
    by_cases hk : k = s.file_number
    · rw [hk, lookupTable_nameUpdate_self]
      simp
    · rw [lookupTable_nameUpdate_ne _ _ _ hk]
  · rw [if_neg hcond]

/-- The whole EMASTER pass never changes which keys are present. -/
theorem emFold_isSome (ems : List Stock) :
    ∀ (t : Table) (k : Nat),
      (lookupTable (List.foldl emStep t ems) k).isSome = (lookupTable t k).isSome := by
  induction ems with
  | nil => intro t k; rfl
  | cons e es ih =>
    intro t k
    rw [List.foldl_cons, ih (emStep t e) k, emStep_isSome]

/-- `b` differs from `a` at most in `stock_name`. -/
def sameButName (a b : Stock) : Prop := b = { a with stock_name := b.stock_name }

/-- `sameButName` is reflexive: a record equals its own name-overwrite. -/
theorem sameButName_refl (a : Stock) : sameButName a a := rfl

/-- One EMASTER step changes an entry at most in `stock_name`. -/
theorem emStep_shape (t : Table) (s : Stock) (k : Nat) (v : Stock)
    (h : lookupTable (emStep t s) k = some v) :
    ∃ v0, lookupTable t k = some v0 ∧ sameButName v0 v := by
  unfold emStep at h
  by_cases hcond : 0 < s.file_number ∧ 0 < s.stock_name.length ∧
      (lookupTable t s.file_number).isSome = true
  · rw [if_pos hcond] at h
    by_cases hk : k = s.file_number
    · rw [hk, lookupTable_nameUpdate_self] at h
      cases hv0 : lookupTable t s.file_number with
      | none => rw [hv0] at h; simp at h
      | some v0 =>
        rw [hv0] at h
        simp only [Option.map_some', Option.some.injEq] at h
        refine ⟨v0, by rw [← hk] at hv0; exact hv0, ?_⟩
        rw [← h]
        rfl
    · rw [lookupTable_nameUpdate_ne _ _ _ hk] at h
      exact ⟨v, h, sameButName_refl v⟩
  · rw [if_neg hcond] at h
    exact ⟨v, h, sameButName_refl v⟩

/-- `sameButName` composes transitively. -/
theorem sameButName_trans (a b c : Stock) (h1 : sameButName a b)
    (h2 : sameButName b c) : sameButName a c := by
  unfold sameButName at h1 h2 ⊢
  rw [h2, h1]

/-- The whole EMASTER pass changes entries at most in `stock_name`. -/
theorem emFold_shape (ems : List Stock) :
    ∀ (t : Table) (k : Nat) (v : Stock),
      lookupTable (List.foldl emStep t ems) k = some v →
      ∃ v0, lookupTable t k = some v0 ∧ sameButName v0 v := by
  induction ems with
  | nil => intro t k v h; exact ⟨v, h, sameButName_refl v⟩
  | cons e es ih =>
    intro t k v h
    rw [List.foldl_cons] at h
    obtain ⟨v1, hv1, hs1⟩ := ih (emStep t e) k v h
    obtain ⟨v0, hv0, hs0⟩ := emStep_shape t e k v1 hv1
    exact ⟨v0, hv0, sameButName_trans v0 v1 v hs0 hs1⟩

/-- Every entry the MASTER pass leaves comes from one of its records. -/
theorem masterAux_lookup (recs : List Stock) :
    ∀ (t : Table) (k : Nat) (s : Stock),
      lookupTable (List.foldl mStep t recs) k = some s →
      lookupTable t k = some s ∨ (s ∈ recs ∧ s.file_number = k ∧ 0 < k) := by
  induction recs with
  | nil => intro t k s h; exact Or.inl h
  | cons r rs ih =>
    intro t k s h
    rw [List.foldl_cons] at h
    rcases ih (mStep t r) k s h with h1 | h2
    · unfold mStep at h1
      by_cases hr : 0 < r.file_number
      · rw [if_pos hr] at h1
        by_cases hk : r.file_number = k
        · rw [← hk, lookupTable_dictInsert_self] at h1
          cases h1
          exact Or.inr ⟨List.mem_cons_self r rs, hk, hk ▸ hr⟩
        · rw [lookupTable_dictInsert_ne _ _ _ (fun hh => hk hh.symm)] at h1
          exact Or.inl h1
      · rw [if_neg hr] at h1
        exact Or.inl h1
    · exact Or.inr ⟨List.mem_cons_of_mem r h2.1, h2.2⟩

/-- A key present before a MASTER step is present after it. -/
theorem mStep_isSome_mono (t : Table) (r : Stock) (k : Nat)
    (h : (lookupTable t k).isSome = true) :
    (lookupTable (mStep t r) k).isSome = true := by
  unfold mStep
  by_cases hr : 0 < r.file_number
  · rw [if_pos hr]
    by_cases hk : k = r.file_number
    · rw [hk, lookupTable_dictInsert_self]; rfl
    · rw [lookupTable_dictInsert_ne _ _ _ hk]; exact h
  · rw [if_neg hr]; exact h

/-- A key present before the MASTER fold is present after it. -/
theorem masterAux_isSome_mono (recs : List Stock) :
    ∀ (t : Table) (k : Nat), (lookupTable t k).isSome = true →
      (lookupTable (List.foldl mStep t recs) k).isSome = true := by
  induction recs with
  | nil => intro t k h; exact h
  | cons r rs ih =>
    intro t k h
    rw [List.foldl_cons]
    exact ih (mStep t r) k (mStep_isSome_mono t r k h)

/-- Every record with a positive file number lands in the MASTER table. -/
theorem masterAux_mem (recs : List Stock) :
    ∀ (t : Table) (s : Stock), s ∈ recs → 0 < s.file_number →
      (lookupTable (List.foldl mStep t recs) s.file_number).isSome = true := by
  induction recs with
  | nil => intro t s h; simp at h
  | cons r rs ih =>
    intro t s hmem hpos
    rw [List.foldl_cons]
    rcases List.mem_cons.mp hmem with h1 | h2
    · subst h1
      apply masterAux_isSome_mono
      unfold mStep
      rw [if_pos hpos, lookupTable_dictInsert_self]
      rfl
    · exact ih (mStep t r) s h2 hpos

/--
C4: catalog construction takes the standard index as authoritative — one
entry per MASTER record with positive file number, keyed by that number, and
no entry for file number 0; the extended pass changes only `stock_name`, and
only for records with positive file number, non-empty name, and an existing
key (any other extended record leaves the table untouched); the
cross-reference index is never merged (the result ignores it).
-/
theorem C4_catalog_merge (m e x : List Stock) :
    (∀ k s, lookupTable (buildSymbols m e x) k = some s → 0 < k) ∧
    (∀ k, (lookupTable (buildSymbols m e x) k).isSome =
      (lookupTable (masterPass m) k).isSome) ∧
    (∀ k s, lookupTable (buildSymbols m e x) k = some s →
      ∃ s0, lookupTable (masterPass m) k = some s0 ∧ sameButName s0 s) ∧
    (∀ k s0, lookupTable (masterPass m) k = some s0 →
      0 < s0.file_number ∧ s0.file_number = k ∧ s0 ∈ m) ∧
    (∀ s ∈ m, 0 < s.file_number →
      (lookupTable (masterPass m) s.file_number).isSome = true) ∧
    (∀ (t : Table) (s : Stock),
      ¬ (0 < s.file_number ∧ 0 < s.stock_name.length ∧
          (lookupTable t s.file_number).isSome = true) → emStep t s = t) ∧
    buildSymbols m e x = buildSymbols m e [] := by
  have hmaster : ∀ k s0, lookupTable (masterPass m) k = some s0 →
      0 < s0.file_number ∧ s0.file_number = k ∧ s0 ∈ m := by
    intro k s0 h
    rcases masterAux_lookup m [] k s0 h with h1 | h2
    · exact absurd h1 (by simp [lookupTable])
    · exact ⟨h2.2.1 ▸ h2.2.2, h2.2.1, h2.1⟩
  refine ⟨?_, ?_, ?_, hmaster, ?_, ?_, rfl⟩
  · intro k s h
    obtain ⟨s0, hs0, _⟩ := emFold_shape e (masterPass m) k s h
    exact (hmaster k s0 hs0).2.1 ▸ (hmaster k s0 hs0).1
  · intro k
    exact emFold_isSome e (masterPass m) k
  · intro k s h
    exact emFold_shape e (masterPass m) k s h
  · intro s hmem hpos
    exact masterAux_mem m [] s hmem hpos
  · intro t s hcond
    unfold emStep
    rw [if_neg hcond]

/-- The extended-index record of the C4 witness: overwrites the name of 7. -/
def emStockNew : Stock := { file_number := 7, stock_name := "NewName" }

/--
C4 witness: on a concrete one-record MASTER and one-record EMASTER (and a
non-empty cross-reference list), the final entry for key 7 comes from the
MASTER record with only its `stock_name` rewritten.
-/
theorem C4_catalog_merge_witness :
    ∃ s0, lookupTable (masterPass [abcStock]) 7 = some s0 ∧
      sameButName s0 { abcStock with stock_name := "NewName" } :=
  (C4_catalog_merge [abcStock] [emStockNew] [emStockNew]).2.2.1 7
    { abcStock with stock_name := "NewName" } (by rfl)

end Ms2txt

